import Mathlib

/-!
Verification of the porterminal session/output-buffering and I/O-coordination
subsystem against its specification.

Shallow embedding conventions:
* `bytes` values are modelled as `List Nat` (one `Nat` per byte).
* Python `str` values are modelled as `List Char` (one `Char` per code point,
  matching Python's `len` on `str`).
* Python `float` timestamps and token counts are modelled as `ℚ`.
* Side-effecting calls on the connection / PTY are modelled as an explicit
  list of `Effect` values returned by the embedded handler.
-/

namespace Porterminal

/-- A byte string, one `Nat` per byte. -/
abbrev Bytes := List Nat

/-! ### OutputBuffer

Embedded from `src/porterminal/domain/entities/output_buffer.py`.
-/

/-- Constant `OUTPUT_BUFFER_MAX_BYTES = 1_000_000` from `output_buffer.py`. -/
def OUTPUT_BUFFER_MAX_BYTES : Nat := 1000000

/-- Constant `CLEAR_SCREEN_SEQUENCE = b"\x1b[2J"` from `output_buffer.py`
(bytes ESC, [, 2, J). -/
def CLEAR_SCREEN_SEQUENCE : Bytes := [0x1b, 0x5b, 0x32, 0x4a]

/-- State of `OutputBuffer`: the `deque` of chunks (head = oldest), the
running `_size` counter and the configured `max_bytes`. -/
structure OutputBuffer where
  maxBytes : Nat
  buffer : List Bytes
  size : Nat
deriving DecidableEq

/-- A freshly constructed `OutputBuffer(max_bytes=m)`. -/
def OutputBuffer.mkNew (m : Nat) : OutputBuffer :=
  ⟨m, [], 0⟩

/-- Method `OutputBuffer.clear`: empty the chunk deque and reset `_size` to 0. -/
def OutputBuffer.clear (b : OutputBuffer) : OutputBuffer :=
  { b with buffer := [], size := 0 }

/-- Method `OutputBuffer.get_all`: concatenation of all chunks in order. -/
def OutputBuffer.getAll (b : OutputBuffer) : Bytes :=
  b.buffer.flatten

/-- Python's substring test `needle in hay` on bytes: true iff `needle`
occurs contiguously inside `hay` (always true for the empty needle). -/
def containsSeq (needle : Bytes) : Bytes → Bool
  | [] => needle.isEmpty
  | a :: t => needle.isPrefixOf (a :: t) || containsSeq needle t

/-- Property `OutputBuffer.is_empty`: `_size == 0`. -/
def OutputBuffer.isEmpty (b : OutputBuffer) : Bool :=
  b.size == 0

/-- The trimming `while` loop of `OutputBuffer.add`:
`while self._size > self.max_bytes and self._buffer: removed = popleft();
self._size -= len(removed)`. -/
def trimLoop (m : Nat) : List Bytes → Nat → List Bytes × Nat
  | [], s => ([], s)
  | c :: rest, s =>
      if s > m then trimLoop m rest (s - c.length) else (c :: rest, s)

/-- Method `OutputBuffer.add(data)` as written in src: clear when the chunk contains
the clear-screen sequence, append the chunk, bump the size counter, then trim
whole chunks from the head while over `max_bytes`. -/
def OutputBuffer.add (b : OutputBuffer) (data : Bytes) : OutputBuffer :=
  let b1 := if containsSeq CLEAR_SCREEN_SEQUENCE data then b.clear else b
  let appended := b1.buffer ++ [data]
  let newSize := b1.size + data.length
  let trimmed := trimLoop b1.maxBytes appended newSize
  { b1 with buffer := trimmed.1, size := trimmed.2 }

/-- Total byte length of a chunk list. -/
def totalLen (l : List Bytes) : Nat :=
  (l.map List.length).sum

/-- Well-formedness of an `OutputBuffer` state: the `_size` counter equals the
total length of the buffered chunks (true of every reachable state). -/
def OutputBuffer.WF (b : OutputBuffer) : Prop :=
  b.size = totalLen b.buffer

instance (b : OutputBuffer) : Decidable b.WF := by
  unfold OutputBuffer.WF; infer_instance

/-- One abstract operation on the buffer, for stating invariants over every
call sequence. -/
inductive BufOp where
  | add (data : Bytes)
  | clear
deriving DecidableEq

/-- Apply one buffer operation. -/
def applyOp (b : OutputBuffer) : BufOp → OutputBuffer
  | .add data => b.add data
  | .clear => b.clear

/-- Apply a sequence of buffer operations, oldest first. -/
def applyOps (b : OutputBuffer) (ops : List BufOp) : OutputBuffer :=
  ops.foldl applyOp b

theorem totalLen_nil : totalLen [] = 0 := rfl

theorem totalLen_cons (c : Bytes) (l : List Bytes) :
    totalLen (c :: l) = c.length + totalLen l := by
  simp [totalLen]

theorem totalLen_append_one (l : List Bytes) (d : Bytes) :
    totalLen (l ++ [d]) = totalLen l + d.length := by
  simp [totalLen]

theorem getAll_length (b : OutputBuffer) :
    b.getAll.length = totalLen b.buffer := by
  simp [OutputBuffer.getAll, totalLen]

theorem trimLoop_noop (m : Nat) (l : List Bytes) (s : Nat) (h : s ≤ m) :
    trimLoop m l s = (l, s) := by
  cases l with
  | nil => simp [trimLoop]
  | cons c rest => simp [trimLoop, Nat.not_lt.mpr h]

theorem trimLoop_wf (m : Nat) :
    ∀ (l : List Bytes) (s : Nat), s = totalLen l →
      (trimLoop m l s).2 = totalLen (trimLoop m l s).1 ∧ (trimLoop m l s).2 ≤ m := by
  intro l
  induction l with
  | nil =>
      intro s hs
      simp [totalLen] at hs
      simp [trimLoop, hs, totalLen]
  | cons c rest ih =>
      intro s hs
      rw [totalLen_cons] at hs
      by_cases hgt : s > m
      · have hrec : s - c.length = totalLen rest := by omega
        simpa [trimLoop, hgt] using ih (s - c.length) hrec
      · rw [trimLoop_noop m _ s (Nat.not_lt.mp hgt)]
        constructor
        · simpa [totalLen_cons] using hs
        · omega

theorem trimLoop_suffix (m : Nat) :
    ∀ (l : List Bytes) (s : Nat), (trimLoop m l s).1 <:+ l := by
  intro l
  induction l with
  | nil => intro s; simp [trimLoop]
  | cons c rest ih =>
      intro s
      by_cases hgt : s > m
      · simpa [trimLoop, hgt] using (ih (s - c.length)).trans (List.suffix_cons c rest)
      · simp [trimLoop, hgt]

theorem trimLoop_overflow (m : Nat) (d : Bytes) (hd : d.length > m) :
    ∀ (l : List Bytes) (s : Nat), s = totalLen l →
      trimLoop m (l ++ [d]) (s + d.length) = ([], 0) := by
  intro l
  induction l with
  | nil =>
      intro s hs
      simp [totalLen] at hs
      subst hs
      simp [trimLoop, hd]
  | cons c rest ih =>
      intro s hs
      rw [totalLen_cons] at hs
      have hgt : s + d.length > m := by omega
      have harith : s + d.length - c.length = totalLen rest + d.length := by omega
      simp only [List.cons_append, trimLoop, if_pos hgt, harith]
      exact ih (totalLen rest) rfl

theorem clear_wf (b : OutputBuffer) : b.clear.WF := by
  simp [OutputBuffer.clear, OutputBuffer.WF, totalLen]

theorem add_maxBytes (b : OutputBuffer) (d : Bytes) :
    (b.add d).maxBytes = b.maxBytes := by
  unfold OutputBuffer.add
  split <;> rfl

theorem add_wf (b : OutputBuffer) (h : b.WF) (d : Bytes) : (b.add d).WF := by
  unfold OutputBuffer.add
  set b1 := if containsSeq CLEAR_SCREEN_SEQUENCE d then b.clear else b with hb1
  have hwf1 : b1.WF := by
    rw [hb1]; split
    · exact clear_wf b
    · exact h
  have hsz : b1.size + d.length = totalLen (b1.buffer ++ [d]) := by
    rw [totalLen_append_one, hwf1]
  exact (trimLoop_wf b1.maxBytes (b1.buffer ++ [d]) (b1.size + d.length) hsz).1

theorem add_size_le (b : OutputBuffer) (h : b.WF) (d : Bytes) :
    (b.add d).size ≤ b.maxBytes := by
  unfold OutputBuffer.add
  set b1 := if containsSeq CLEAR_SCREEN_SEQUENCE d then b.clear else b with hb1
  have hwf1 : b1.WF := by
    rw [hb1]; split
    · exact clear_wf b
    · exact h
  have hmb : b1.maxBytes = b.maxBytes := by
    rw [hb1]; split <;> rfl
  have hsz : b1.size + d.length = totalLen (b1.buffer ++ [d]) := by
    rw [totalLen_append_one, hwf1]
  have := (trimLoop_wf b1.maxBytes (b1.buffer ++ [d]) (b1.size + d.length) hsz).2
  simpa [hmb] using this

theorem add_buffer_suffix (b : OutputBuffer) (d : Bytes) :
    (b.add d).buffer <:+
      ((if containsSeq CLEAR_SCREEN_SEQUENCE d then [] else b.buffer) ++ [d]) := by
  unfold OutputBuffer.add
  split <;> simpa [OutputBuffer.clear] using trimLoop_suffix _ _ _

theorem applyOps_wf (ops : List BufOp) :
    ∀ (b : OutputBuffer), b.WF → (applyOps b ops).WF := by
  induction ops with
  | nil => intro b h; exact h
  | cons op rest ih =>
      intro b h
      cases op with
      | add d => exact ih _ (add_wf b h d)
      | clear => exact ih _ (clear_wf b)

theorem applyOps_maxBytes (ops : List BufOp) :
    ∀ (b : OutputBuffer), (applyOps b ops).maxBytes = b.maxBytes := by
  induction ops with
  | nil => intro b; rfl
  | cons op rest ih =>
      intro b
      cases op with
      | add d => rw [applyOps, List.foldl_cons]
                 exact (ih _).trans (add_maxBytes b d)
      | clear => exact ih _

theorem mkNew_wf (m : Nat) : (OutputBuffer.mkNew m).WF := by
  simp [OutputBuffer.mkNew, OutputBuffer.WF, totalLen]

theorem add_no_clear_no_trim (b : OutputBuffer) (d : Bytes)
    (hc : containsSeq CLEAR_SCREEN_SEQUENCE d = false)
    (hs : b.size + d.length ≤ b.maxBytes) :
    b.add d = { b with buffer := b.buffer ++ [d], size := b.size + d.length } := by
  unfold OutputBuffer.add
  simp [hc, trimLoop_noop _ _ _ hs]

theorem add_clear_no_trim (b : OutputBuffer) (d : Bytes)
    (hc : containsSeq CLEAR_SCREEN_SEQUENCE d = true)
    (hd : d.length ≤ b.maxBytes) :
    b.add d = { b with buffer := [d], size := d.length } := by
  unfold OutputBuffer.add
  simp [hc, OutputBuffer.clear]
  rw [trimLoop_noop b.maxBytes [d] d.length hd]
  exact ⟨rfl, rfl⟩

theorem add_overflow (b : OutputBuffer) (h : b.WF) (d : Bytes)
    (hd : d.length > b.maxBytes) :
    (b.add d).buffer = [] ∧ (b.add d).size = 0 := by
  unfold OutputBuffer.add
  set b1 := if containsSeq CLEAR_SCREEN_SEQUENCE d then b.clear else b with hb1
  have hwf1 : b1.size = totalLen b1.buffer := by
    rw [hb1]; split
    · exact clear_wf b
    · exact h
  have hmb : b1.maxBytes = b.maxBytes := by
    rw [hb1]; split <;> rfl
  have hkey : trimLoop b1.maxBytes (b1.buffer ++ [d]) (b1.size + d.length) = ([], 0) := by
    rw [hmb]
    exact trimLoop_overflow b.maxBytes d hd b1.buffer b1.size hwf1
  simp [hkey]

/-- Claim C3: for every configured `max_bytes`, every sequence of `add`/`clear`
calls on a fresh `OutputBuffer`, and every further chunk, after the final `add`
the buffer satisfies `size == len(get_all())` and `size <= max_bytes`, and the
trim only removed whole chunks from the head: the surviving chunk list is a
suffix of the pre-trim chunk list (prior chunks, possibly discarded by the
clear-screen rule, followed by the new chunk). -/
theorem outputBuffer_size_invariant (m : Nat) (ops : List BufOp) (d : Bytes) :
    ((applyOps (OutputBuffer.mkNew m) ops).add d).size =
      ((applyOps (OutputBuffer.mkNew m) ops).add d).getAll.length ∧
    ((applyOps (OutputBuffer.mkNew m) ops).add d).size ≤ m ∧
    ((applyOps (OutputBuffer.mkNew m) ops).add d).buffer <:+
      ((if containsSeq CLEAR_SCREEN_SEQUENCE d then []
        else (applyOps (OutputBuffer.mkNew m) ops).buffer) ++ [d]) := by
  have hwf : (applyOps (OutputBuffer.mkNew m) ops).WF :=
    applyOps_wf ops _ (mkNew_wf m)
  have hmb : (applyOps (OutputBuffer.mkNew m) ops).maxBytes = m :=
    applyOps_maxBytes ops _
  refine ⟨?_, ?_, add_buffer_suffix _ d⟩
  · have := add_wf _ hwf d
    rw [OutputBuffer.WF] at this
    rw [this, getAll_length]
  · have := add_size_le _ hwf d
    rwa [hmb] at this

/-- Claim C7: on the buffer as implemented in src (which has no alt-screen
state, so every `add` happens outside alt-screen), previously buffered content
is discarded exactly when the added chunk contains the clear-screen sequence
`ESC[2J`: if the chunk contains it and fits in `max_bytes`, `get_all()` after
the call equals the chunk alone; if it does not contain it (and no size trim
triggers), the old content is fully preserved in front of the chunk. -/
theorem clearScreen_rule (m : Nat) (ops : List BufOp) (d : Bytes) :
    (containsSeq CLEAR_SCREEN_SEQUENCE d = true → d.length ≤ m →
      ((applyOps (OutputBuffer.mkNew m) ops).add d).getAll = d) ∧
    (containsSeq CLEAR_SCREEN_SEQUENCE d = false →
      (applyOps (OutputBuffer.mkNew m) ops).size + d.length ≤ m →
      ((applyOps (OutputBuffer.mkNew m) ops).add d).getAll =
        (applyOps (OutputBuffer.mkNew m) ops).getAll ++ d) := by
  have hmb : (applyOps (OutputBuffer.mkNew m) ops).maxBytes = m :=
    applyOps_maxBytes ops _
  constructor
  · intro hc hd
    rw [add_clear_no_trim _ d hc (by rw [hmb]; exact hd)]
    simp [OutputBuffer.getAll]
  · intro hc hs
    rw [add_no_clear_no_trim _ d hc (by rw [hmb]; exact hs)]
    simp [OutputBuffer.getAll]

/-- Witness for C7 at concrete inputs: adding `ESC[2J` to a buffer holding
`[1,2,3]` leaves exactly `ESC[2J`; adding `[5]` (no clear sequence) appends. -/
theorem clearScreen_rule_example :
    ((applyOps (OutputBuffer.mkNew 10) [BufOp.add [1, 2, 3]]).add
      [0x1b, 0x5b, 0x32, 0x4a]).getAll = [0x1b, 0x5b, 0x32, 0x4a] ∧
    ((applyOps (OutputBuffer.mkNew 10) [BufOp.add [1, 2, 3]]).add [5]).getAll =
      [1, 2, 3, 5] := by
  constructor
  · exact (clearScreen_rule 10 [BufOp.add [1, 2, 3]]
      [0x1b, 0x5b, 0x32, 0x4a]).1 (by decide) (by decide)
  · have := (clearScreen_rule 10 [BufOp.add [1, 2, 3]] [5]).2 (by decide) (by decide)
    rw [this]
    decide

/-- Claim C9: adding a single chunk strictly larger than `max_bytes` leaves the
buffer completely empty — the trim loop drops all older chunks and then the
oversized chunk itself, so the newest bytes are dropped along with the oldest
rather than the chunk being truncated. -/
theorem oversized_chunk_empties (m : Nat) (ops : List BufOp) (d : Bytes)
    (hd : d.length > m) :
    ((applyOps (OutputBuffer.mkNew m) ops).add d).size = 0 ∧
    ((applyOps (OutputBuffer.mkNew m) ops).add d).getAll = [] := by
  have hwf : (applyOps (OutputBuffer.mkNew m) ops).WF :=
    applyOps_wf ops _ (mkNew_wf m)
  have hmb : (applyOps (OutputBuffer.mkNew m) ops).maxBytes = m :=
    applyOps_maxBytes ops _
  have h := add_overflow _ hwf d (by rw [hmb]; exact hd)
  exact ⟨h.2, by rw [OutputBuffer.getAll, h.1]; rfl⟩

/-- Witness for C9 at concrete inputs: a 3-byte chunk added to a 2-byte buffer
already holding 2 bytes leaves it empty. -/
theorem oversized_chunk_empties_example :
    ((applyOps (OutputBuffer.mkNew 2) [BufOp.add [1, 2]]).add [3, 4, 5]).size = 0 ∧
    ((applyOps (OutputBuffer.mkNew 2) [BufOp.add [1, 2]]).add [3, 4, 5]).getAll = [] :=
  oversized_chunk_empties 2 [BufOp.add [1, 2]] [3, 4, 5] (by decide)

/-- The `ESC[?1049h` alt-screen enter sequence (DEC private mode 1049). -/
def vimEnter1049 : Bytes := [0x1b, 0x5b, 0x3f, 0x31, 0x30, 0x34, 0x39, 0x68]

/-- The `ESC[?1049l` alt-screen exit sequence (DEC private mode 1049). -/
def vimExit1049 : Bytes := [0x1b, 0x5b, 0x3f, 0x31, 0x30, 0x34, 0x39, 0x6c]

/-- Claim C1 (divergence witness): `OutputBuffer.add` as implemented in src has
no alt-screen handling at all, so `add(A); add(enter 1049); add(B);
add(exit 1049)` keeps everything: `get_all()` is the concatenation of all four
chunks and still contains `B` — the claim (and the repository's own tests,
which import `ALT_SCREEN_ENTER`/`ALT_SCREEN_EXIT` and read `in_alt_screen`,
none of which exist in `output_buffer.py`) requires `get_all() = A` with the
alt-screen content discarded. -/
theorem altScreen_not_implemented_in_src :
    (((((OutputBuffer.mkNew OUTPUT_BUFFER_MAX_BYTES).add [0x41]).add
        vimEnter1049).add [0x42]).add vimExit1049).getAll =
      [0x41] ++ vimEnter1049 ++ [0x42] ++ vimExit1049 ∧
    containsSeq [0x42]
      (((((OutputBuffer.mkNew OUTPUT_BUFFER_MAX_BYTES).add [0x41]).add
        vimEnter1049).add [0x42]).add vimExit1049).getAll = true := by
  decide

/-! ### Environment sanitization

Embedded from `src/porterminal/pty/env.py`.
-/

/-- Constant `SAFE_ENV_VARS` from `env.py`: the allow-list. -/
def SAFE_ENV_VARS : List String :=
  ["PATH", "PATHEXT", "SYSTEMROOT", "WINDIR", "TEMP", "TMP", "COMSPEC",
   "HOME", "USERPROFILE", "HOMEDRIVE", "HOMEPATH", "LOCALAPPDATA", "APPDATA",
   "PROGRAMFILES", "PROGRAMFILES(X86)", "COMMONPROGRAMFILES",
   "COMPUTERNAME", "USERNAME", "USERDOMAIN", "OS", "PROCESSOR_ARCHITECTURE",
   "NUMBER_OF_PROCESSORS", "TERM", "LANG", "LC_ALL", "LC_CTYPE"]

/-- Constant `BLOCKED_ENV_VARS` from `env.py`: the explicit block-list of secrets. -/
def BLOCKED_ENV_VARS : List String :=
  ["AWS_ACCESS_KEY_ID", "AWS_SECRET_ACCESS_KEY", "AWS_SESSION_TOKEN",
   "AZURE_CLIENT_SECRET", "AZURE_CLIENT_ID",
   "GH_TOKEN", "GITHUB_TOKEN", "GITLAB_TOKEN", "NPM_TOKEN",
   "ANTHROPIC_API_KEY", "OPENAI_API_KEY", "GOOGLE_API_KEY",
   "STRIPE_SECRET_KEY", "DATABASE_URL", "DB_PASSWORD",
   "SECRET_KEY", "API_KEY", "API_SECRET", "PRIVATE_KEY"]

/-- Function `build_safe_environment` from `env.py`, as the lookup function of the
returned dict: the ambient environment (a partial map) filtered through the
allow-list, with `TERM` and `TERM_SESSION_TYPE` forced afterwards. -/
def build_safe_environment (environ : String → Option String) :
    String → Option String :=
  fun k =>
    if k = "TERM" then some ("xterm-256color")
    else if k = "TERM_SESSION_TYPE" then some ("remote-web")
    else if SAFE_ENV_VARS.contains k then environ k
    else none

/-- Claim C2: for every ambient environment, the sanitized environment holds
only allow-listed keys plus the two forced pairs; `TERM` and
`TERM_SESSION_TYPE` always map to their forced values (even if absent from the
input, overwriting any ambient value); and no blocked key ever appears. -/
theorem build_safe_environment_sound (environ : String → Option String)
    (k : String) :
    (∀ v, build_safe_environment environ k = some v →
      SAFE_ENV_VARS.contains k = true ∨ k = "TERM" ∨ k = "TERM_SESSION_TYPE") ∧
    build_safe_environment environ ("TERM") = some ("xterm-256color") ∧
    build_safe_environment environ ("TERM_SESSION_TYPE") = some ("remote-web") ∧
    (BLOCKED_ENV_VARS.contains k = true → build_safe_environment environ k = none) := by
  have hdisj : ∀ x ∈ BLOCKED_ENV_VARS,
      SAFE_ENV_VARS.contains x = false ∧ x ≠ "TERM" ∧ x ≠ "TERM_SESSION_TYPE" := by
    decide
  refine ⟨?_, ?_, ?_, ?_⟩
  · intro v hv
    unfold build_safe_environment at hv
    split_ifs at hv with h1 h2 h3
    all_goals first
      | exact Or.inr (Or.inl h1)
      | exact Or.inr (Or.inr h2)
      | exact Or.inl h3
  · simp [build_safe_environment]
  · simp [build_safe_environment]
  · intro hb
    have hmem : k ∈ BLOCKED_ENV_VARS := by simpa using hb
    obtain ⟨h1, h2, h3⟩ := hdisj k hmem
    have h1m : k ∉ SAFE_ENV_VARS := by simpa using h1
    simp [build_safe_environment, h1m, h2, h3]

/-- A concrete ambient environment holding one secret. -/
def envWithSecret : String → Option String :=
  fun k => if k = "AWS_SECRET_ACCESS_KEY" then some ("hunter2") else none

/-- Witness for C2: with a concrete ambient environment carrying
`AWS_SECRET_ACCESS_KEY`, the sanitized output drops it while forcing `TERM`. -/
theorem build_safe_environment_sound_example :
    build_safe_environment envWithSecret ("AWS_SECRET_ACCESS_KEY") = none ∧
    build_safe_environment envWithSecret ("TERM") = some ("xterm-256color") :=
  ⟨(build_safe_environment_sound envWithSecret ("AWS_SECRET_ACCESS_KEY")).2.2.2
      (by decide),
   (build_safe_environment_sound envWithSecret ("AWS_SECRET_ACCESS_KEY")).2.1⟩

/-! ### Rate limiter, session and terminal-service handlers

The handlers are embedded from
`src/porterminal/application/services/terminal_service.py`. The rate limiter,
terminal dimensions and `Session` entity live in domain modules that are not
present under `src/` (only `src/porterminal/domain/values/rate_limit_config.py`
and their tests/callers are), so they are modelled from the spec below.
-/

/-- Structure `RateLimitConfig` from
`src/porterminal/domain/values/rate_limit_config.py`: `rate` tokens/second
(float, here `ℚ`) and integer `burst`, defaults 100.0 and 500. -/
structure RateLimitConfig where
  rate : ℚ
  burst : Nat
deriving DecidableEq

/-- The default `RateLimitConfig()`. -/
def RateLimitConfig.default : RateLimitConfig :=
  ⟨100, 500⟩

/-- Modelled from the spec: `TokenBucketRateLimiter` state
(`src/porterminal/domain/services/rate_limiter.py` is absent from `src/`) —
current token count (float, here `ℚ`, starts at `burst`) and the last-refill
timestamp from the injected clock. -/
structure TokenBucketRateLimiter where
  config : RateLimitConfig
  tokens : ℚ
  lastRefill : ℚ
deriving DecidableEq

/-- A freshly constructed limiter: `tokens` starts at `burst`, `last_refill`
at the clock's current time. -/
def TokenBucketRateLimiter.mkNew (config : RateLimitConfig) (now : ℚ) :
    TokenBucketRateLimiter :=
  ⟨config, (config.burst : ℚ), now⟩

/-- Modelled from the spec: `try_acquire(n)` — refill first
(`tokens = min(burst, tokens + elapsed*rate)`, `last_refill = now`), then
subtract and answer true when `tokens >= n`, else answer false consuming
nothing. Returns the decision and the successor state. -/
def TokenBucketRateLimiter.tryAcquire (rl : TokenBucketRateLimiter)
    (now : ℚ) (n : Nat) : Bool × TokenBucketRateLimiter :=
  let refilled := min (rl.config.burst : ℚ) (rl.tokens + (now - rl.lastRefill) * rl.config.rate)
  if (n : ℚ) ≤ refilled then
    (true, ⟨rl.config, refilled - (n : ℚ), now⟩)
  else
    (false, ⟨rl.config, refilled, now⟩)

/-- Modelled from the spec: the slice of the `Session` entity the terminal
service touches (`src/porterminal/domain/entities/session.py` is absent from
`src/`) — id, shell, current dimensions (cols, rows), `last_activity`
timestamp, and the owned output buffer. -/
structure Session where
  sessionId : String
  shellId : String
  dimensions : Int × Int
  lastActivity : ℚ
  outputBuffer : OutputBuffer
deriving DecidableEq

/-- Modelled from the spec: `Session.touch` updates `last_activity`. -/
def Session.touch (s : Session) (now : ℚ) : Session :=
  { s with lastActivity := now }

/-- Modelled from the spec: `Session.get_buffered_output` returns the owned
buffer's `get_all()`. -/
def Session.getBufferedOutput (s : Session) : Bytes :=
  s.outputBuffer.getAll

/-- Modelled from the spec: `Session.clear_buffer` clears the owned buffer. -/
def Session.clearBuffer (s : Session) : Session :=
  { s with outputBuffer := s.outputBuffer.clear }

/-- Modelled from the spec: `Session.update_dimensions` replaces the session's
dimensions. -/
def Session.updateDimensions (s : Session) (dims : Int × Int) : Session :=
  { s with dimensions := dims }

/-- Outbound control messages of `terminal_service.py`. -/
inductive ControlMessage where
  | sessionInfo (sessionId : String) (shell : String)
  | ping
  | pong
  | error (message : String)
deriving DecidableEq

/-- One observable side effect of a handler on its collaborators: a control
message or raw output sent on the connection, a write or resize on the PTY
handle, or closing the connection. -/
inductive Effect where
  | sendMessage (m : ControlMessage)
  | sendOutput (data : Bytes)
  | ptyWrite (data : Bytes)
  | ptyResize (cols : Int) (rows : Int)
  | close (code : Nat) (reason : String)
deriving DecidableEq

/-- Result of one embedded handler call: the updated session, the updated
rate limiter, and the effects performed, in order. -/
structure HandlerResult where
  session : Session
  limiter : TokenBucketRateLimiter
  effects : List Effect
deriving DecidableEq

/-- Constant `MAX_INPUT_SIZE = 4096` from `terminal_service.py`. -/
def MAX_INPUT_SIZE : Nat := 4096

/-- Method `TerminalService._handle_binary_input` from `terminal_service.py`:
oversized payloads get an error message and are dropped; otherwise
`len(data)` tokens are requested, and on success the payload is written to
the PTY and `last_activity` updated, on failure a rate-limit error is sent.
`monoNow` is the limiter clock reading, `wallNow` the `datetime.now(UTC)`
used by `touch`. -/
def handleBinaryInput (maxInputSize : Nat) (sess : Session) (data : Bytes)
    (rl : TokenBucketRateLimiter) (monoNow wallNow : ℚ) : HandlerResult :=
  if data.length > maxInputSize then
    ⟨sess, rl, [Effect.sendMessage (ControlMessage.error ("Input too large"))]⟩
  else
    let acq := rl.tryAcquire monoNow data.length
    if acq.1 then
      ⟨sess.touch wallNow, acq.2, [Effect.ptyWrite data]⟩
    else
      ⟨sess, acq.2, [Effect.sendMessage (ControlMessage.error ("Rate limit exceeded"))]⟩

/-- Encoding of one code point in UTF-8, as Python's `str.encode("utf-8")`
produces it (arithmetic form of the standard 1–4 byte scheme). -/
def utf8EncodeChar (c : Char) : Bytes :=
  let n := c.toNat
  if n < 0x80 then [n]
  else if n < 0x800 then
    [0xC0 + n / 64, 0x80 + n % 64]
  else if n < 0x10000 then
    [0xE0 + n / 4096, 0x80 + (n / 64) % 64, 0x80 + n % 64]
  else
    [0xF0 + n / 262144, 0x80 + (n / 4096) % 64, 0x80 + (n / 64) % 64, 0x80 + n % 64]

/-- Encoding of a whole Python string in UTF-8 (the string is modelled as its list of code points). -/
def utf8Encode (s : List Char) : Bytes :=
  (s.map utf8EncodeChar).flatten

/-- Method `TerminalService._handle_json_input` from `terminal_service.py`: the
`data` field of an `{"type":"input"}` message (a Python `str`, modelled as its
code points). Note the size check compares `len(data)` — the number of
characters — against the limit, and the empty string is ignored entirely. -/
def handleJsonInput (maxInputSize : Nat) (sess : Session) (data : List Char)
    (rl : TokenBucketRateLimiter) (monoNow wallNow : ℚ) : HandlerResult :=
  if data.length > maxInputSize then
    ⟨sess, rl, [Effect.sendMessage (ControlMessage.error ("Input too large"))]⟩
  else if data ≠ [] then
    let inputBytes := utf8Encode data
    let acq := rl.tryAcquire monoNow inputBytes.length
    if acq.1 then
      ⟨sess.touch wallNow, acq.2, [Effect.ptyWrite inputBytes]⟩
    else
      ⟨sess, acq.2, [Effect.sendMessage (ControlMessage.error ("Rate limit exceeded"))]⟩
  else
    ⟨sess, rl, []⟩

/-- Clamp an integer into `[lo, hi]`. -/
def clampInt (lo hi v : Int) : Int :=
  max lo (min hi v)

/-- Bounds on terminal dimensions. `MIN_COLS`/`MAX_COLS`/`MIN_ROWS`/`MAX_ROWS`
live in `src/porterminal/domain/values/terminal_dimensions.py`, absent from
`src/`; the spec fixes no numeric values, so they stay parameters. -/
structure DimBounds where
  minCols : Int
  maxCols : Int
  minRows : Int
  maxRows : Int
deriving DecidableEq

/-- Modelled from the spec: `TerminalDimensions.clamped(cols, rows)` clamps
each coordinate into its bounds. -/
def clampedDims (bd : DimBounds) (cols rows : Int) : Int × Int :=
  (clampInt bd.minCols bd.maxCols cols, clampInt bd.minRows bd.maxRows rows)

/-- Method `TerminalService._handle_resize` from `terminal_service.py`: missing
`cols`/`rows` default to 120 and 30, the values are clamped, and when the
result equals the session's current dimensions nothing happens; otherwise the
session dimensions are updated, the PTY resized and `last_activity` touched. -/
def handleResize (bd : DimBounds) (sess : Session)
    (cols? rows? : Option Int) (wallNow : ℚ) : Session × List Effect :=
  let cols := cols?.getD 120
  let rows := rows?.getD 30
  let newDims := clampedDims bd cols rows
  if sess.dimensions = newDims then
    (sess, [])
  else
    ((sess.updateDimensions newDims).touch wallNow,
      [Effect.ptyResize newDims.1 newDims.2])

/-- The buffered-output replay step of `TerminalService.handle_session`
(lines 73–78 of `terminal_service.py`): unless `skip_buffer` and unless the
buffer is empty, take the buffered output, clear the buffer, and send the
bytes as one `send_output` call when non-empty. -/
def replayBufferedOutput (sess : Session) (skipBuffer : Bool) :
    Session × List Effect :=
  if !skipBuffer && !sess.outputBuffer.isEmpty then
    let buffered := sess.getBufferedOutput
    let cleared := sess.clearBuffer
    if buffered ≠ [] then (cleared, [Effect.sendOutput buffered])
    else (cleared, [])
  else
    (sess, [])

/-- Claim C4: for every binary payload, oversize (length > configured max)
yields only an error control message — no PTY write, no token consumption, no
`last_activity` change; within the limit, a denied `try_acquire(len(payload))`
yields only a rate-limit error message and no PTY write; a granted one writes
exactly the payload and touches `last_activity`; and no case closes the
connection. -/
theorem binary_input_validation (maxIn : Nat) (sess : Session) (data : Bytes)
    (rl : TokenBucketRateLimiter) (monoNow wallNow : ℚ) :
    (data.length > maxIn →
      handleBinaryInput maxIn sess data rl monoNow wallNow =
        ⟨sess, rl, [Effect.sendMessage (ControlMessage.error ("Input too large"))]⟩) ∧
    (data.length ≤ maxIn → (rl.tryAcquire monoNow data.length).1 = false →
      handleBinaryInput maxIn sess data rl monoNow wallNow =
        ⟨sess, (rl.tryAcquire monoNow data.length).2,
          [Effect.sendMessage (ControlMessage.error ("Rate limit exceeded"))]⟩) ∧
    (data.length ≤ maxIn → (rl.tryAcquire monoNow data.length).1 = true →
      handleBinaryInput maxIn sess data rl monoNow wallNow =
        ⟨sess.touch wallNow, (rl.tryAcquire monoNow data.length).2,
          [Effect.ptyWrite data]⟩) ∧
    (∀ e ∈ (handleBinaryInput maxIn sess data rl monoNow wallNow).effects,
      ∀ c r, e ≠ Effect.close c r) := by
  have hbig : data.length > maxIn →
      handleBinaryInput maxIn sess data rl monoNow wallNow =
        ⟨sess, rl, [Effect.sendMessage (ControlMessage.error ("Input too large"))]⟩ := by
    intro h
    unfold handleBinaryInput
    rw [if_pos h]
  have hdeny : data.length ≤ maxIn → (rl.tryAcquire monoNow data.length).1 = false →
      handleBinaryInput maxIn sess data rl monoNow wallNow =
        ⟨sess, (rl.tryAcquire monoNow data.length).2,
          [Effect.sendMessage (ControlMessage.error ("Rate limit exceeded"))]⟩ := by
    intro h1 h2
    unfold handleBinaryInput
    rw [if_neg (by omega)]
    simp [h2]
  have hgrant : data.length ≤ maxIn → (rl.tryAcquire monoNow data.length).1 = true →
      handleBinaryInput maxIn sess data rl monoNow wallNow =
        ⟨sess.touch wallNow, (rl.tryAcquire monoNow data.length).2,
          [Effect.ptyWrite data]⟩ := by
    intro h1 h2
    unfold handleBinaryInput
    rw [if_neg (by omega)]
    simp [h2]
  refine ⟨hbig, hdeny, hgrant, ?_⟩
  intro e he c r
  by_cases h1 : data.length > maxIn
  · simp [hbig h1] at he
    subst he
    simp
  · have h1' : data.length ≤ maxIn := by omega
    cases hb : (rl.tryAcquire monoNow data.length).1
    · simp [hdeny h1' hb] at he
      subst he
      simp
    · simp [hgrant h1' hb] at he
      subst he
      simp

/-- A concrete session for witnesses. -/
def sessEx : Session :=
  ⟨"s1", "bash", (120, 30), 0, OutputBuffer.mkNew OUTPUT_BUFFER_MAX_BYTES⟩

/-- A freshly-built limiter with the default config (tokens = burst = 500). -/
def rlFull : TokenBucketRateLimiter :=
  TokenBucketRateLimiter.mkNew RateLimitConfig.default 0

/-- A drained limiter with the default config (0 tokens left). -/
def rlDrained : TokenBucketRateLimiter :=
  ⟨RateLimitConfig.default, 0, 0⟩

theorem replicate_4097_oversize : (List.replicate 4097 (0 : Nat)).length > 4096 := by
  simp only [List.length_replicate]
  omega

theorem rlFull_grants_one : (rlFull.tryAcquire 0 1).1 = true := by
  norm_num [rlFull, TokenBucketRateLimiter.mkNew, RateLimitConfig.default,
    TokenBucketRateLimiter.tryAcquire]

theorem rlDrained_denies_one : (rlDrained.tryAcquire 0 1).1 = false := by
  norm_num [rlDrained, RateLimitConfig.default, TokenBucketRateLimiter.tryAcquire]

/-- Witness for C4: all three branches at concrete inputs — a 4097-byte
payload is rejected as too large, a 1-byte payload is rate-limited on a
drained limiter and written through on a full one. -/
theorem binary_input_validation_example :
    handleBinaryInput 4096 sessEx (List.replicate 4097 0) rlFull 0 0 =
      ⟨sessEx, rlFull, [Effect.sendMessage (ControlMessage.error ("Input too large"))]⟩ ∧
    handleBinaryInput 4096 sessEx [7] rlDrained 0 0 =
      ⟨sessEx, (rlDrained.tryAcquire 0 1).2,
        [Effect.sendMessage (ControlMessage.error ("Rate limit exceeded"))]⟩ ∧
    handleBinaryInput 4096 sessEx [7] rlFull 0 0 =
      ⟨sessEx.touch 0, (rlFull.tryAcquire 0 1).2, [Effect.ptyWrite [7]]⟩ :=
  ⟨(binary_input_validation 4096 sessEx (List.replicate 4097 0) rlFull 0 0).1
      replicate_4097_oversize,
   (binary_input_validation 4096 sessEx [7] rlDrained 0 0).2.1
      (by simp) rlDrained_denies_one,
   (binary_input_validation 4096 sessEx [7] rlFull 0 0).2.2.1
      (by simp) rlFull_grants_one⟩

theorem utf8EncodeChar_length_pos (c : Char) : 1 ≤ (utf8EncodeChar c).length := by
  simp only [utf8EncodeChar]
  split_ifs <;> simp

theorem utf8Encode_cons (c : Char) (t : List Char) :
    utf8Encode (c :: t) = utf8EncodeChar c ++ utf8Encode t := by
  simp [utf8Encode]

theorem length_le_utf8Encode_length (s : List Char) :
    s.length ≤ (utf8Encode s).length := by
  induction s with
  | nil => simp [utf8Encode]
  | cons c t ih =>
      rw [utf8Encode_cons, List.length_append]
      have := utf8EncodeChar_length_pos c
      simp only [List.length_cons]
      omega

/-- Claim C6 as amended: for every non-empty string whose UTF-8 encoding fits
the configured max input size, handling the structured input message is
literally the same computation as handling the binary UTF-8 payload — same
token acquisition, same PTY write and `last_activity` update, same error on
rate-limit denial. (The unamended claim fails: the JSON size check counts
characters, not encoded bytes, and the empty string is ignored — see the
counterexample.) -/
theorem json_input_matches_binary (maxIn : Nat) (sess : Session)
    (data : List Char) (rl : TokenBucketRateLimiter) (monoNow wallNow : ℚ)
    (hne : data ≠ []) (hlen : (utf8Encode data).length ≤ maxIn) :
    handleJsonInput maxIn sess data rl monoNow wallNow =
      handleBinaryInput maxIn sess (utf8Encode data) rl monoNow wallNow := by
  have hchar : data.length ≤ maxIn :=
    le_trans (length_le_utf8Encode_length data) hlen
  unfold handleJsonInput handleBinaryInput
  rw [if_neg (show ¬ data.length > maxIn by omega)]
  rw [if_pos hne]
  rw [if_neg (show ¬ (utf8Encode data).length > maxIn by omega)]

/-- Witness for C6 (amended) at a concrete ASCII input. -/
theorem json_input_matches_binary_example :
    handleJsonInput 4096 sessEx ['h', 'i'] rlFull 0 0 =
      handleBinaryInput 4096 sessEx (utf8Encode ['h', 'i']) rlFull 0 0 :=
  json_input_matches_binary 4096 sessEx ['h', 'i'] rlFull 0 0
    (by decide) (by decide)

/-- The character U+00E9, whose UTF-8 encoding is two bytes. -/
def eAcute : Char := 'é'

theorem utf8EncodeChar_eAcute : utf8EncodeChar eAcute = [195, 169] := rfl

theorem utf8Encode_replicate_length (n : Nat) (c : Char) :
    (utf8Encode (List.replicate n c)).length = n * (utf8EncodeChar c).length := by
  induction n with
  | zero => simp [utf8Encode]
  | succ k ih =>
      rw [List.replicate_succ, utf8Encode_cons, List.length_append, ih]
      ring

theorem utf8Encode_eAcute_2049_length :
    (utf8Encode (List.replicate 2049 eAcute)).length = 4098 := by
  rw [utf8Encode_replicate_length, utf8EncodeChar_eAcute]
  rfl

theorem replicate_2049_ne_nil : List.replicate 2049 eAcute ≠ [] := by
  intro h
  have h2 := congrArg List.length h
  rw [List.length_replicate, List.length_nil] at h2
  omega

theorem rlFull_denies_4098 : (rlFull.tryAcquire 0 4098).1 = false := by
  norm_num [rlFull, TokenBucketRateLimiter.mkNew, RateLimitConfig.default,
    TokenBucketRateLimiter.tryAcquire]

/-- Counterexample for C6 as stated: 2049 copies of U+00E9 encode to 4098
UTF-8 bytes. The structured input message passes the JSON handler's size
check (2049 characters ≤ 4096) and falls through to the rate limiter, which
denies, so the client gets "Rate limit exceeded" — while the binary handler,
given the same 4098 encoded bytes, rejects them as "Input too large" without
consulting the limiter. The two paths do not apply the same size check, so
their observable effects differ. -/
theorem json_size_check_differs_from_binary :
    (handleJsonInput 4096 sessEx (List.replicate 2049 eAcute) rlFull 0 0).effects ≠
      (handleBinaryInput 4096 sessEx
        (utf8Encode (List.replicate 2049 eAcute)) rlFull 0 0).effects := by
  have hjson : (handleJsonInput 4096 sessEx (List.replicate 2049 eAcute) rlFull 0 0).effects =
      [Effect.sendMessage (ControlMessage.error ("Rate limit exceeded"))] := by
    unfold handleJsonInput
    rw [if_neg (show ¬ (List.replicate 2049 eAcute).length > 4096 by
      simp only [List.length_replicate]; omega)]
    rw [if_pos replicate_2049_ne_nil]
    have hd : (rlFull.tryAcquire 0 (utf8Encode (List.replicate 2049 eAcute)).length).1 = false := by
      rw [utf8Encode_eAcute_2049_length]
      exact rlFull_denies_4098
    simp only [hd]
    rfl
  have hbin : (handleBinaryInput 4096 sessEx
      (utf8Encode (List.replicate 2049 eAcute)) rlFull 0 0).effects =
      [Effect.sendMessage (ControlMessage.error ("Input too large"))] := by
    unfold handleBinaryInput
    rw [if_pos (show (utf8Encode (List.replicate 2049 eAcute)).length > 4096 by
      rw [utf8Encode_eAcute_2049_length]; omega)]
  rw [hjson, hbin]
  decide

/-- Claim C8: resize handling — absent `cols`/`rows` default to 120 and 30,
the values are clamped into the dimension bounds; when the clamped result
equals the session's current dimensions the session, the PTY and
`last_activity` are all untouched (no resize effect); otherwise the session
dimensions become the clamped value, the PTY is resized to it, and
`last_activity` is updated. -/
theorem resize_handling (bd : DimBounds) (sess : Session)
    (cols? rows? : Option Int) (wallNow : ℚ) :
    (sess.dimensions = clampedDims bd (cols?.getD 120) (rows?.getD 30) →
      handleResize bd sess cols? rows? wallNow = (sess, [])) ∧
    (sess.dimensions ≠ clampedDims bd (cols?.getD 120) (rows?.getD 30) →
      handleResize bd sess cols? rows? wallNow =
        ({ sess with
            dimensions := clampedDims bd (cols?.getD 120) (rows?.getD 30),
            lastActivity := wallNow },
          [Effect.ptyResize (clampedDims bd (cols?.getD 120) (rows?.getD 30)).1
            (clampedDims bd (cols?.getD 120) (rows?.getD 30)).2])) := by
  constructor
  · intro h
    unfold handleResize
    simp [h]
  · intro h
    unfold handleResize
    simp only [h, if_neg]
    simp [Session.updateDimensions, Session.touch, h]

/-- Concrete dimension bounds for witnesses (the numeric bounds are not fixed
by the spec; the claim is proved for every choice). -/
def bdEx : DimBounds := ⟨20, 500, 5, 200⟩

/-- Witness for C8: a resize message with both fields absent defaults to
120×30, which equals the example session's current dimensions, so nothing
changes; an oversized 1000 columns clamps to 500 and triggers the resize. -/
theorem resize_handling_example :
    handleResize bdEx sessEx none none 0 = (sessEx, []) ∧
    handleResize bdEx sessEx (some 1000) none 0 =
      ({ sessEx with dimensions := ((500 : Int), (30 : Int)), lastActivity := 0 },
        [Effect.ptyResize 500 30]) :=
  ⟨(resize_handling bdEx sessEx none none 0).1 (by decide),
   (resize_handling bdEx sessEx (some 1000) none 0).2 (by decide)⟩

/-- Claim C10: the empty-input asymmetry — a structured input message carrying
the empty string is ignored entirely (no limiter call, no PTY write, no
`last_activity` update, no reply), while an empty binary frame passes the
size check, acquires 0 tokens (which always succeeds for a well-formed
limiter under a monotone clock), writes the empty payload to the PTY and
touches `last_activity`. -/
theorem empty_input_asymmetry (maxIn : Nat) (sess : Session)
    (rl : TokenBucketRateLimiter) (monoNow wallNow : ℚ)
    (htok : 0 ≤ rl.tokens) (hclock : rl.lastRefill ≤ monoNow)
    (hrate : 0 ≤ rl.config.rate) :
    handleJsonInput maxIn sess [] rl monoNow wallNow = ⟨sess, rl, []⟩ ∧
    (rl.tryAcquire monoNow 0).1 = true ∧
    handleBinaryInput maxIn sess [] rl monoNow wallNow =
      ⟨sess.touch wallNow, (rl.tryAcquire monoNow 0).2, [Effect.ptyWrite []]⟩ := by
  have hrefill : (0 : ℚ) ≤
      min (rl.config.burst : ℚ)
        (rl.tokens + (monoNow - rl.lastRefill) * rl.config.rate) := by
    apply le_min
    · exact Nat.cast_nonneg _
    · have hel : (0 : ℚ) ≤ monoNow - rl.lastRefill := by linarith
      have := mul_nonneg hel hrate
      linarith
  have hacq : (rl.tryAcquire monoNow 0).1 = true := by
    simp [TokenBucketRateLimiter.tryAcquire, hrefill]
  refine ⟨?_, hacq, ?_⟩
  · unfold handleJsonInput
    simp
  · unfold handleBinaryInput
    simp [hacq]

theorem rlFull_tokens_nonneg : (0 : ℚ) ≤ rlFull.tokens := by
  norm_num [rlFull, TokenBucketRateLimiter.mkNew, RateLimitConfig.default]

theorem rlFull_rate_nonneg : (0 : ℚ) ≤ rlFull.config.rate := by
  norm_num [rlFull, TokenBucketRateLimiter.mkNew, RateLimitConfig.default]

/-- Witness for C10 on the freshly-built default limiter. -/
theorem empty_input_asymmetry_example :
    handleJsonInput 4096 sessEx [] rlFull 0 0 = ⟨sessEx, rlFull, []⟩ ∧
    handleBinaryInput 4096 sessEx [] rlFull 0 0 =
      ⟨sessEx.touch 0, (rlFull.tryAcquire 0 0).2, [Effect.ptyWrite []]⟩ :=
  ⟨(empty_input_asymmetry 4096 sessEx rlFull 0 0
      rlFull_tokens_nonneg (le_refl 0) rlFull_rate_nonneg).1,
   (empty_input_asymmetry 4096 sessEx rlFull 0 0
      rlFull_tokens_nonneg (le_refl 0) rlFull_rate_nonneg).2.2⟩

/-- Claim C5: buffered-output replay is at-most-once — with `skip_buffer`
false and a non-empty buffer, exactly one `send_output` call delivers the
whole buffered content and the buffer is empty afterwards, so a repeated
replay delivers nothing; with `skip_buffer` true nothing is sent and the
session (buffer included) is unchanged. -/
theorem buffered_replay_at_most_once (sess : Session)
    (hwf : sess.outputBuffer.WF) :
    (sess.outputBuffer.isEmpty = false →
      (replayBufferedOutput sess false).2 =
        [Effect.sendOutput sess.outputBuffer.getAll] ∧
      (replayBufferedOutput sess false).1.outputBuffer.isEmpty = true ∧
      replayBufferedOutput (replayBufferedOutput sess false).1 false =
        ((replayBufferedOutput sess false).1, [])) ∧
    replayBufferedOutput sess true = (sess, []) := by
  constructor
  · intro hne
    have hsz : sess.outputBuffer.size ≠ 0 := by
      intro h0
      rw [OutputBuffer.isEmpty, h0] at hne
      simp at hne
    have hbuf : sess.outputBuffer.getAll ≠ [] := by
      intro h0
      apply hsz
      rw [OutputBuffer.WF] at hwf
      rw [hwf, ← getAll_length, h0]
      rfl
    have hstep : replayBufferedOutput sess false =
        (sess.clearBuffer, [Effect.sendOutput sess.outputBuffer.getAll]) := by
      unfold replayBufferedOutput
      rw [if_pos (by simp [hne])]
      rw [if_pos (show sess.getBufferedOutput ≠ [] from hbuf)]
      rfl
    refine ⟨by rw [hstep], by rw [hstep]; rfl, ?_⟩
    rw [hstep]
    unfold replayBufferedOutput
    rw [if_neg (by simp [Session.clearBuffer, OutputBuffer.clear, OutputBuffer.isEmpty])]
  · rfl

/-- A session with two bytes of buffered output, for the C5 witness. -/
def sessWithBuf : Session :=
  ⟨"s1", "bash", (120, 30), 0, ⟨10, [[1, 2]], 2⟩⟩

/-- Witness for C5: the buffered bytes go out as one `send_output` and a
second replay delivers nothing; with `skip_buffer` the session is untouched. -/
theorem buffered_replay_at_most_once_example :
    (replayBufferedOutput sessWithBuf false).2 = [Effect.sendOutput [1, 2]] ∧
    replayBufferedOutput (replayBufferedOutput sessWithBuf false).1 false =
      ((replayBufferedOutput sessWithBuf false).1, []) ∧
    replayBufferedOutput sessWithBuf true = (sessWithBuf, []) :=
  ⟨((buffered_replay_at_most_once sessWithBuf (by decide)).1 (by decide)).1,
   ((buffered_replay_at_most_once sessWithBuf (by decide)).1 (by decide)).2.2,
   (buffered_replay_at_most_once sessWithBuf (by decide)).2⟩

end Porterminal
